import Mathlib

/-!
Verification of the xpath query engine of the webscraping repository
(src/xpath.py, src/common.py).  Text is embedded as `List Char`; the
Python regular expressions used by the source are embedded as explicit
character scans with the same matching semantics (leftmost, non-greedy
or greedy exactly as the source pattern dictates).  Recursions whose
measure is a position in the text use an explicit fuel argument; every
wrapper supplies fuel larger than the text length, which is always
sufficient because each step advances the position.
-/

set_option maxRecDepth 100000

namespace WebScraping

/-- Characters of a string literal: the representation of text here. -/
def lc (s : String) : List Char := s.data

abbrev LC := List Char

/-- Python 2 `\w` (no Unicode flag): ASCII letters, digits, underscore. -/
def isWordChar (c : Char) : Bool :=
  c.isAlpha || c.isDigit || c == '_'

/-- Lower-casing of a character list (Python `.lower()` on ASCII text). -/
def lowerL (l : LC) : LC := l.map Char.toLower

/-- Character of `s` at index `i`, if any. -/
def charAt (s : LC) (i : Nat) : Option Char := s.get? i

/-- Case-insensitive test that `pat` occurs in `s` starting at index `i`. -/
def ciAt (pat s : LC) (i : Nat) : Bool :=
  lowerL ((s.drop i).take pat.length) == lowerL pat

/-- Index of the first occurrence of character `c` in `s` at index `≥ i`. -/
def findCharFrom (s : LC) (c : Char) (i : Nat) : Option Nat :=
  match (s.drop i).findIdx? (· == c) with
  | some k => some (i + k)
  | none => none

instance exceptDecEq {ε α : Type} [DecidableEq ε] [DecidableEq α] :
    DecidableEq (Except ε α) := fun x y =>
  match x, y with
  | .ok a, .ok b =>
    if h : a = b then .isTrue (by rw [h]) else .isFalse (fun hh => h (Except.ok.inj hh))
  | .error a, .error b =>
    if h : a = b then .isTrue (by rw [h]) else .isFalse (fun hh => h (Except.error.inj hh))
  | .ok _, .error _ => .isFalse (fun hh => Except.noConfusion hh)
  | .error _, .ok _ => .isFalse (fun hh => Except.noConfusion hh)

/-- Errors raised by the engine (class XPathException in xpath.py). -/
inductive XPathException where
  | unsupportedParent : XPathException
  | unsupportedWildcard : XPathException
  | unknownFormat : LC → XPathException
  deriving DecidableEq

/-- Embeds EMPTY_TAGS of xpath.py: the tags the scanner skips. -/
def emptyTagsXpath : List LC := [lc "br", lc "hr"]

/-- Embeds get_tag of xpath.py: the regex `<(\w+)` matched at the start
    of the text; returns the group, the maximal word run after `<`. -/
def getTag : LC → Option LC
  | '<' :: c :: rest =>
    if isWordChar c then some (c :: rest.takeWhile isWordChar) else none
  | _ => none

/-- One search of the regex `<(\w+)` : the suffix of the text starting at
    the first tag occurrence, together with the group (the tag name). -/
def findTagOcc : LC → Option (LC × LC)
  | [] => none
  | c :: rest =>
    match getTag (c :: rest) with
    | some name => some (c :: rest, name)
    | none => findTagOcc rest

/-- Fuel-indexed loop of jump_next_tag of xpath.py. -/
def jumpNextTagF : Nat → LC → Option LC
  | 0, _ => none
  | fuel + 1, s =>
    match findTagOcc s with
    | none => none
    | some (suf, name) =>
      if lowerL name ∈ emptyTagsXpath then
        jumpNextTagF fuel (suf.drop (name.length + 1))
      else
        some suf

/-- Embeds jump_next_tag of xpath.py: the text at the start of the next
    tag, skipping tags whose name is in EMPTY_TAGS. -/
def jumpNextTag (s : LC) : Option LC := jumpNextTagF (s.length + 1) s

/-- Match of the regex `</?tag.*?>` (DOTALL, IGNORECASE) at index `i` of
    `s`: the optional slash is taken greedily, the tag name compares
    case-insensitively, and `.*?>` ends the match at the first later `>`.
    Returns the exclusive end index of the match. -/
def tagMatchAt (tagL s : LC) (i : Nat) : Option Nat :=
  if charAt s i ≠ some '<' then none
  else
    let afterName : Option Nat :=
      if charAt s (i + 1) = some '/' ∧ ciAt tagL s (i + 2) then
        some (i + 2 + tagL.length)
      else if ciAt tagL s (i + 1) then
        some (i + 1 + tagL.length)
      else
        none
    match afterName with
    | none => none
    | some j => (findCharFrom s '>' j).map (· + 1)

/-- First match of `</?tag.*?>` at an index `≥ i` (start, exclusive end). -/
def nextTagMatchFrom (tagL s : LC) : Nat → Nat → Option (Nat × Nat)
  | 0, _ => none
  | fuel + 1, i =>
    if s.length ≤ i then none
    else
      match tagMatchAt tagL s i with
      | some e => some (i, e)
      | none => nextTagMatchFrom tagL s fuel (i + 1)

/-- Fuel-indexed loop of split_tag of xpath.py: walk the non-overlapping
    matches of `</?tag.*?>` from index `i`, updating the depth counter,
    and split the text at the end of the match where depth reaches 0. -/
def splitTagF (tagL s : LC) : Nat → Nat → Int → Option (LC × LC)
  | 0, _, _ => none
  | fuel + 1, i, depth =>
    match nextTagMatchFrom tagL s (s.length + 1) i with
    | none => none
    | some (st, en) =>
      let depth2 : Int :=
        if charAt s (st + 1) = some '/' then depth - 1
        else if charAt s (en - 2) = some '/' then depth
        else depth + 1
      if depth2 = 0 then some (s.take en, s.drop en)
      else splitTagF tagL s fuel en depth2

/-- Embeds split_tag of xpath.py: extract the starting tag fragment and
    the remainder.  The Python code formats the result of get_tag into
    the pattern, so a text with no leading tag uses the literal "None"
    (`'%s' % None`), exactly as the source does.  When no match brings
    the depth to 0, the fragment is the whole text with a synthesized
    closing tag appended and the remainder is empty. -/
def splitTag (s : LC) : LC × LC :=
  let tagL := (getTag s).getD (lc "None")
  match splitTagF tagL s (s.length + 1) 0 0 with
  | some r => r
  | none => (s ++ '<' :: '/' :: (tagL ++ ['>']), [])

/-- Fuel-indexed loop of find_children of xpath.py. -/
def findChildrenF (tagQ : LC) : Nat → LC → List LC
  | 0, _ => []
  | fuel + 1, s =>
    match jumpNextTag s with
    | none => []
    | some s2 =>
      let p := splitTag s2
      if p.1 = [] then []
      else
        (if lowerL tagQ = lc "*" ∨ lowerL tagQ = lowerL ((getTag p.1).getD [])
         then [p.1] else []) ++ findChildrenF tagQ fuel p.2

/-- Embeds find_children of xpath.py: top-level fragments whose tag name
    equals `tagQ` (case-insensitively), or all of them for `*`. -/
def findChildren (s tagQ : LC) : List LC := findChildrenF tagQ (s.length + 1) s

/-- Non-overlapping occurrences (start indices) of the literal `pat`
    in `s`, compared case-insensitively, scanning from index `i`. -/
def findOccsF (pat s : LC) : Nat → Nat → List Nat
  | 0, _ => []
  | fuel + 1, i =>
    if s.length ≤ i then []
    else if pat ≠ [] ∧ ciAt pat s i then i :: findOccsF pat s fuel (i + pat.length)
    else findOccsF pat s fuel (i + 1)

/-- Embeds find_descendants of xpath.py: fails on the wildcard, else
    split_tag applied at every occurrence of `<tag` (IGNORECASE). -/
def findDescendants (s tagQ : LC) : Except XPathException (List LC) :=
  if tagQ = lc "*" then .error .unsupportedWildcard
  else .ok (((findOccsF ('<' :: tagQ) s (s.length + 1) 0)).map
    (fun st => (splitTag (s.drop st)).1))

/-- First occurrence of the character list `pat` in `s` at an index `≥ i`
    (compared case-insensitively, which is exact for patterns without
    letters). -/
def findSubFromF (pat s : LC) : Nat → Nat → Option Nat
  | 0, _ => none
  | fuel + 1, i =>
    if s.length ≤ i then none
    else if ciAt pat s i then some i
    else findSubFromF pat s fuel (i + 1)

/-- Python 2 whitespace, as stripped by str.strip(). -/
def wsChars : List Char := [' ', '\t', '\n', '\r', '\x0b', '\x0c']

/-- Python str.strip(chars): delete the given characters from both ends. -/
def stripChars (cs : List Char) (s : LC) : LC :=
  ((s.dropWhile (· ∈ cs)).reverse.dropWhile (· ∈ cs)).reverse

/-- Characters of the attribute-name class `[\w-]`. -/
def isAttrNameChar (c : Char) : Bool := isWordChar c || c == '-'

/-- Value alternative of the attribute regex: `".*?"` then `'.*?'` then
    `\w+`, tried in this order; returns the matched value (quotes kept,
    as in the regex group) and the rest of the text. -/
def attrValue : LC → Option (LC × LC)
  | '"' :: v =>
    if (v.findIdx? (· == '"')).isSome then
      let k := v.takeWhile (· ≠ '"')
      some ('"' :: (k ++ ['"']), v.drop (k.length + 1))
    else none
  | '\'' :: v =>
    if (v.findIdx? (· == '\'')).isSome then
      let k := v.takeWhile (· ≠ '\'')
      some ('\'' :: (k ++ ['\'']), v.drop (k.length + 1))
    else none
  | v =>
    let k := v.takeWhile isWordChar
    if k = [] then none else some (k, v.drop k.length)

/-- Scan of the regex `([\w-]+)=(".*?"|'.*?'|\w+)` (findall): at a name
    run immediately followed by `=` and a value alternative, emit the
    pair and continue after it; otherwise advance one character. -/
def attrPairsF : Nat → LC → List (LC × LC)
  | 0, _ => []
  | _ + 1, [] => []
  | fuel + 1, c :: rest =>
    if isAttrNameChar c then
      let nmrest := rest.takeWhile isAttrNameChar
      match rest.drop nmrest.length with
      | '=' :: v =>
        match attrValue v with
        | some (val, rest2) => (c :: nmrest, val) :: attrPairsF fuel rest2
        | none => attrPairsF fuel rest
      | _ => attrPairsF fuel rest
    else attrPairsF fuel rest

/-- Embeds get_attributes of xpath.py: pairs scanned from the text up to
    the first `>`, names lower-cased and stripped, values stripped of
    quotes and spaces.  The Python dict is kept as the pair list; lookups
    use the last binding of a key, as dict construction would. -/
def getAttributes (s : LC) : List (LC × LC) :=
  let s2 := if s.contains '>' then s.takeWhile (· ≠ '>') else s
  (attrPairsF (s2.length + 1) s2).map
    (fun p => (stripChars wsChars (lowerL p.1), stripChars ['\'', '"', ' '] p.2))

/-- Lookup in a Python-dict-like pair list: the last binding wins. -/
def dictGet (d : List (LC × LC)) (k : LC) : Option LC :=
  match d.reverse.find? (fun p => p.1 == k) with
  | some p => some p.2
  | none => none

/-- Matcher for the fragment of Python regular expressions that the
    attribute patterns of this development use: literal characters,
    backslash escapes (where `\d` is a digit class, any other escaped
    character a literal), `.` for any character but newline, and `$` for
    end of text (or just before one final newline).  It is anchored at
    the start of the text like re.match and compares letters
    case-insensitively (re.IGNORECASE in the source). -/
def pyMatch : LC → LC → Bool
  | [], _ => true
  | '$' :: ps, s => (s == [] || s == ['\n']) && pyMatch ps s
  | '\\' :: 'd' :: ps, c :: s => c.isDigit && pyMatch ps s
  | '\\' :: c :: ps, d :: s => (c.toLower == d.toLower) && pyMatch ps s
  | '.' :: ps, c :: s => (c != '\n') && pyMatch ps s
  | c :: ps, d :: s => (c.toLower == d.toLower) && pyMatch ps s
  | _ :: _, [] => false

/-- Embeds match_attributes of xpath.py: every desired (name, pattern)
    filter must find the name present and
    re.match(pattern + "$", value, IGNORECASE) succeed; the empty filter
    list succeeds. -/
def matchAttributes : List (LC × LC) → List (LC × LC) → Bool
  | [], _ => true
  | (n, v) :: rest, avail =>
    match dictGet avail n with
    | none => false
    | some value => pyMatch (v ++ ['$']) value && matchAttributes rest avail

/-- Matching as claim C3 words it: the pattern, still carrying the `$`
    end anchor, may begin anywhere in the value (re.search semantics
    instead of re.match). -/
def pySearchMatch (pat s : LC) : Bool :=
  (List.range (s.length + 1)).any (fun k => pyMatch pat (s.drop k))

/-- The attribute matcher that claim C3 describes: end-anchored only. -/
def specMatchAttributes : List (LC × LC) → List (LC × LC) → Bool
  | [], _ => true
  | (n, v) :: rest, avail =>
    match dictGet avail n with
    | none => false
    | some value => pySearchMatch (v ++ ['$']) value && specMatchAttributes rest avail

/-- Last index `q` with `p + 1 ≤ q ≤ s.length - 3` at which `</` occurs
    (the closing-tag position the greedy group of get_content picks). -/
def lastCloseOpen (s : LC) (p : Nat) : Option Nat :=
  (List.range s.length).reverse.find? (fun q =>
    decide (p + 1 ≤ q) && decide (q + 3 ≤ s.length) &&
    (charAt s q == some '<') && (charAt s (q + 1) == some '/'))

/-- Embeds get_content of xpath.py: the regex `<.*?>(.*)</.*?>$` (DOTALL)
    matched at the start.  Its backtracking resolves to: the text starts
    with `<` and ends with `>`, and the group runs from after the first
    `>` to the last `</` that leaves room for the final `>`; when the
    regex fails the default (empty) content is returned. -/
def getContent (s : LC) : LC :=
  if s.head? = some '<' ∧ s.getLast? = some '>' then
    match findCharFrom s '>' 0 with
    | none => []
    | some p =>
      match lastCloseOpen s p with
      | none => []
      | some q => (s.drop (p + 1)).take (q - (p + 1))
  else []

/-- Embeds EMPTY_TAGS of common.py (img listed twice, as in the source). -/
def emptyTagsCommon : List LC :=
  [lc "br", lc "hr", lc "img", lc "meta", lc "link", lc "base", lc "img",
   lc "embed", lc "param", lc "area", lc "col", lc "input"]

/-- Removal pass of the regex `<(br|hr|img|...)[^>]*>` (case-sensitive):
    at a `<` followed by a void-element name, delete through the first
    later `>`; otherwise keep the character. -/
def removeVoidF : Nat → LC → LC
  | 0, s => s
  | _ + 1, [] => []
  | fuel + 1, c :: rest =>
    if c = '<' ∧ emptyTagsCommon.any (fun n => rest.take n.length == n) then
      match rest.findIdx? (· == '>') with
      | some k => removeVoidF fuel (rest.drop (k + 1))
      | none => c :: removeVoidF fuel rest
    else c :: removeVoidF fuel rest

/-- Removal pass of the regex `<.*?>(.*?)</.*?>` (DOTALL): at a `<`, find
    the first later `>`, the first `</` after it, and the first `>` after
    that; delete the whole span, child text included, when all three
    exist. -/
def removePairsF : Nat → LC → LC
  | 0, s => s
  | _ + 1, [] => []
  | fuel + 1, c :: rest =>
    if c = '<' then
      match rest.findIdx? (· == '>') with
      | none => c :: removePairsF fuel rest
      | some p =>
        match findSubFromF (lc "</") rest (rest.length + 1) (p + 1) with
        | none => c :: removePairsF fuel rest
        | some q =>
          match findCharFrom rest '>' (q + 2) with
          | none => c :: removePairsF fuel rest
          | some r => removePairsF fuel (rest.drop (r + 1))
    else c :: removePairsF fuel rest

/-- Removal pass of the regex `<[^<]*?>`: at a `<` whose next angle
    character is a `>`, delete through it. -/
def removeAngleF : Nat → LC → LC
  | 0, s => s
  | _ + 1, [] => []
  | fuel + 1, c :: rest =>
    if c = '<' then
      match rest.findIdx? (fun d => d == '>' || d == '<') with
      | some k =>
        if charAt rest k = some '>' then removeAngleF fuel (rest.drop (k + 1))
        else c :: removeAngleF fuel rest
      | none => c :: removeAngleF fuel rest
    else c :: removeAngleF fuel rest

/-- Embeds remove_tags of common.py: void tags deleted, then (unless
    children are kept) one pass deleting tag pairs together with their
    content, then a pass deleting the remaining tags. -/
def removeTags (s : LC) (keepChildren : Bool) : LC :=
  let s1 := removeVoidF (s.length + 1) s
  let s2 := if keepChildren then s1 else removePairsF (s1.length + 1) s1
  removeAngleF (s2.length + 1) s2

/-- Comment-removal pass of clean_html of xpath.py: the regex
    `<!--.*?-->` (DOTALL), one non-greedy left-to-right pass. -/
def stripCommentsF : Nat → LC → LC
  | 0, s => s
  | _ + 1, [] => []
  | fuel + 1, c :: rest =>
    if c = '<' ∧ rest.take 3 = lc "!--" then
      match findSubFromF (lc "-->") rest (rest.length + 1) 3 with
      | some k => stripCommentsF fuel (rest.drop (k + 3))
      | none => c :: stripCommentsF fuel rest
    else c :: stripCommentsF fuel rest

/-- Embeds clean_html of xpath.py with remove=None, the way search uses
    it in every claim considered here: only comments are deleted. -/
def cleanHtml (s : LC) : LC := stripCommentsF (s.length + 1) s

/-- One findall step of the xpath-splitting regex `(|/|\.\.)/([^/]+)` at
    index `i`: the separator alternatives are tried in the order of the
    pattern (empty, slash, dot-dot), each followed by `/` and a
    non-empty greedy run of non-slash characters (the token).  Returns
    ((separator, token), index after the match). -/
def sepTokAt (s : LC) (i : Nat) : Option ((LC × LC) × Nat) :=
  let tokenAt (j : Nat) : Option (LC × Nat) :=
    let t := (s.drop j).takeWhile (· ≠ '/')
    if t = [] then none else some (t, j + t.length)
  if charAt s i = some '/' then
    match tokenAt (i + 1) with
    | some (t, e) => some (([], t), e)
    | none =>
      if charAt s (i + 1) = some '/' then
        match tokenAt (i + 2) with
        | some (t, e) => some ((lc "/", t), e)
        | none => none
      else none
  else
    if charAt s i = some '.' ∧ charAt s (i + 1) = some '.' ∧
        charAt s (i + 2) = some '/' then
      match tokenAt (i + 3) with
      | some (t, e) => some ((lc "..", t), e)
      | none => none
    else none

/-- Findall scan of `(|/|\.\.)/([^/]+)` over the query string. -/
def tokenizeF (s : LC) : Nat → Nat → List (LC × LC)
  | 0, _ => []
  | fuel + 1, i =>
    if s.length ≤ i then []
    else
      match sepTokAt s i with
      | some (st, e) => st :: tokenizeF s fuel e
      | none => tokenizeF s fuel (i + 1)

/-- The (separator, token) list that xpath_iter of xpath.py iterates. -/
def tokenize (s : LC) : List (LC × LC) := tokenizeF s (s.length + 1) 0

/-- Nat value of a digit run. -/
def digitsToNat (l : LC) : Nat := l.foldl (fun a c => a * 10 + (c.toNat - 48)) 0

/-- Python int() on a string: optional surrounding whitespace, optional
    sign, then one or more digits; anything else raises (here: none). -/
def pyInt (s : LC) : Option Int :=
  let t := stripChars wsChars s
  let p : Int × LC :=
    match t with
    | '-' :: r => (-1, r)
    | '+' :: r => (1, r)
    | r => (1, r)
  if p.2 ≠ [] ∧ p.2.all Char.isDigit then some (p.1 * (digitsToNat p.2 : Int))
  else none

/-- The bracket attribute regex `@(.*?)=["\x27]?(.*?)["\x27]?$` searched
    in a bracket body: a match starts at the first `@` followed by some
    `=`; the name runs to the first such `=`; the value is the remainder
    with one leading and one trailing quote character removed. -/
def attrFilterOf (s : LC) : Option (LC × LC) :=
  match s.findIdx? (· == '@') with
  | none => none
  | some a =>
    let rest := s.drop (a + 1)
    match rest.findIdx? (· == '=') with
    | none => none
    | some e =>
      let v1 := rest.drop (e + 1)
      let v2 : LC :=
        match v1 with
        | '"' :: r => r
        | '\'' :: r => r
        | r => r
      let value : LC :=
        match v2.getLast? with
        | some '"' => v2.dropLast
        | some '\'' => v2.dropLast
        | _ => v2
      some (rest.take e, value)

/-- A parsed query step (one tuple yielded by xpath_iter). -/
structure Step where
  sep : LC
  tag : LC
  index : Option Int
  attrs : List (LC × LC)
  deriving DecidableEq

/-- Findall scan of the bracket regex `\[(.*?)\]` over a token. -/
def bracketContentsF : Nat → LC → List LC
  | 0, _ => []
  | _ + 1, [] => []
  | fuel + 1, c :: rest =>
    if c = '[' then
      match rest.findIdx? (· == ']') with
      | some k => rest.take k :: bracketContentsF fuel (rest.drop (k + 1))
      | none => bracketContentsF fuel rest
    else bracketContentsF fuel rest

/-- Bracket loop of xpath_iter: an integer sets the index, an attribute
    filter is appended lower-cased, anything else raises Unknown format. -/
def applyBrackets : List LC → Option Int → List (LC × LC) →
    Except XPathException (Option Int × List (LC × LC))
  | [], idx, ats => .ok (idx, ats)
  | b :: bs, idx, ats =>
    match pyInt b with
    | some n => applyBrackets bs (some n) ats
    | none =>
      match attrFilterOf b with
      | some kv => applyBrackets bs idx (ats ++ [(lowerL kv.1, lowerL kv.2)])
      | none => .error (.unknownFormat b)

/-- Embeds the per-token parsing of xpath_iter of xpath.py. -/
def parseToken (st : LC × LC) : Except XPathException Step :=
  if st.2.contains '[' then
    match applyBrackets (bracketContentsF (st.2.length + 1) st.2) none [] with
    | .ok r => .ok ⟨st.1, st.2.takeWhile (· ≠ '['), r.1, r.2⟩
    | .error e => .error e
  else .ok ⟨st.1, st.2, none, []⟩

abbrev AttrSet := List (LC × LC)

/-- Axis dispatch of the evaluator: find_children for the empty
    separator, find_descendants otherwise. -/
def axisSearch (sep ctx tagQ : LC) : Except XPathException (List LC) :=
  if sep = [] then .ok (findChildren ctx tagQ) else findDescendants ctx tagQ

/-- Index filter of the evaluator: `index is None or
    index == child_i + 1 or index == -1 and len(matches) == child_i + 1`. -/
def keepIndex (idx : Option Int) (total i : Nat) : Bool :=
  match idx with
  | none => true
  | some k => k == (i : Int) + 1 || (k == -1 && total == i + 1)

/-- Matches kept by a tag step from one scanner match list, starting at
    child position `i`: contents and attribute sets of the matches that
    pass the index filter and then the attribute filters. -/
def collectKept (idx : Option Int) (fats : List (LC × LC)) (total : Nat) :
    Nat → List LC → List LC × List AttrSet
  | _, [] => ([], [])
  | i, m :: ms =>
    let rest := collectKept idx fats total (i + 1) ms
    if keepIndex idx total i then
      let a := getAttributes m
      if matchAttributes fats a then (getContent m :: rest.1, a :: rest.2)
      else rest
    else rest

/-- Tag-step loop of the evaluator over the current contexts. -/
def tagStepFold (sep tagQ : LC) (idx : Option Int) (fats : List (LC × LC)) :
    List LC → Except XPathException (List LC × List AttrSet)
  | [] => .ok ([], [])
  | ctx :: ctxs =>
    match axisSearch sep ctx tagQ with
    | .error e => .error e
    | .ok ms =>
      match tagStepFold sep tagQ idx fats ctxs with
      | .error e => .error e
      | .ok rest =>
        let r := collectKept idx fats ms.length 0 ms
        .ok (r.1 ++ rest.1, r.2 ++ rest.2)

/-- One evaluator step of search of xpath.py: the children produced and
    the parent-attributes list left for the next step. -/
def stepChildren (step : Step) (ctxs : List LC) (pattrs : List AttrSet) :
    Except XPathException (List LC × List AttrSet) :=
  if step.tag = lc ".." then .error .unsupportedParent
  else if step.tag = lc "text()" then
    .ok (ctxs.map (fun c => removeTags c false), pattrs)
  else if step.tag.head? = some '@' then
    .ok (pattrs.map (fun a => (dictGet a (lowerL (step.tag.drop 1))).getD []), pattrs)
  else tagStepFold step.sep step.tag step.index step.attrs ctxs

/-- The evaluator loop of search of xpath.py over the token list: parse
    a token, compute its children, apply the tbody leniency, and stop
    early (returning the now-empty contexts) when nothing remains. -/
def evalTokens : List (LC × LC) → List LC → List AttrSet →
    Except XPathException (List LC)
  | [], ctxs, _ => .ok ctxs
  | tok :: rest, ctxs, pattrs =>
    match parseToken tok with
    | .error e => .error e
    | .ok step =>
      match stepChildren step ctxs pattrs with
      | .error e => .error e
      | .ok r =>
        let ctxs2 := if r.1 = [] ∧ step.tag = lc "tbody" then ctxs else r.1
        if ctxs2 = [] then .ok [] else evalTokens rest ctxs2 r.2

/-- Embeds search of xpath.py with remove=None (as in all the claims
    considered here): strip comments, then evaluate the parsed steps
    against the single initial context. -/
def search (html q : LC) : Except XPathException (List LC) :=
  evalTokens (tokenize q) [cleanHtml html] []

/-- Exact (case-sensitive) occurrence test of `pat` at index `i`. -/
def litAt (pat s : LC) (i : Nat) : Bool := (s.drop i).take pat.length == pat

/-- Known public suffixes, embedded from the tuple in get_domain of
    common.py. -/
def domainSuffixes : List LC :=
  (["ac", "ad", "ae", "aero", "af", "ag", "ai", "al", "am", "an", "ao", "aq",
    "ar", "arpa", "as", "asia", "at", "au", "aw", "ax", "az", "ba", "bb",
    "bd", "be", "bf", "bg", "bh", "bi", "biz", "bj", "bm", "bn", "bo", "br",
    "bs", "bt", "bv", "bw", "by", "bz", "ca", "cat", "cc", "cd", "cf", "cg",
    "ch", "ci", "ck", "cl", "cm", "cn", "co", "com", "coop", "cr", "cu",
    "cv", "cx", "cy", "cz", "de", "dj", "dk", "dm", "do", "dz", "ec", "edu",
    "ee", "eg", "er", "es", "et", "eu", "fi", "fj", "fk", "fm", "fo", "fr",
    "ga", "gb", "gd", "ge", "gf", "gg", "gh", "gi", "gl", "gm", "gn", "gov",
    "gp", "gq", "gr", "gs", "gt", "gu", "gw", "gy", "hk", "hm", "hn", "hr",
    "ht", "hu", "id", "ie", "il", "im", "in", "info", "int", "io", "iq",
    "ir", "is", "it", "je", "jm", "jo", "jobs", "jp", "ke", "kg", "kh",
    "ki", "km", "kn", "kp", "kr", "kw", "ky", "kz", "la", "lb", "lc", "li",
    "lk", "lr", "ls", "lt", "lu", "lv", "ly", "ma", "mc", "md", "me", "mg",
    "mh", "mil", "mk", "ml", "mm", "mn", "mo", "mobi", "mp", "mq", "mr",
    "ms", "mt", "mu", "mv", "mw", "mx", "my", "mz", "na", "name", "nc",
    "ne", "net", "nf", "ng", "ni", "nl", "no", "np", "nr", "nu", "nz",
    "om", "org", "pa", "pe", "pf", "pg", "ph", "pk", "pl", "pm", "pn",
    "pr", "pro", "ps", "pt", "pw", "py", "qa", "re", "ro", "rs", "ru",
    "rw", "sa", "sb", "sc", "sd", "se", "sg", "sh", "si", "sj", "sk",
    "sl", "sm", "sn", "so", "sr", "st", "su", "sv", "sy", "sz", "tc",
    "td", "tel", "tf", "tg", "th", "tj", "tk", "tl", "tm", "tn", "to",
    "tp", "tr", "tt", "tv", "tw", "tz", "ua", "ug", "uk", "us", "uy",
    "uz", "va", "vc", "ve", "vg", "vi", "vn", "vu", "wf", "ws", "xn",
    "ye", "yt", "za", "zm", "zw"] : List String).map lc

/-- Match of `\d{1,3}\.` at index `i`: a digit run of length one to three
    followed by a dot (a longer run cannot back off, since every shorter
    cut is still followed by a digit); returns the index after the dot. -/
def quadComp (s : LC) (i : Nat) : Option Nat :=
  let run := (s.drop i).takeWhile Char.isDigit
  if run.length = 0 ∨ 3 < run.length then none
  else if charAt s (i + run.length) = some '.' then some (i + run.length + 1)
  else none

/-- Final `\d{1,3}` of the dotted quad: greedily up to three digits. -/
def quadLast (s : LC) (i : Nat) : Option Nat :=
  let run := (s.drop i).takeWhile Char.isDigit
  if run.length = 0 then none else some (i + min run.length 3)

/-- End of a dotted-quad match starting at index `i`. -/
def ipQuadEnd (s : LC) (i : Nat) : Option Nat := do
  let a ← quadComp s i
  let b ← quadComp s a
  let c ← quadComp s b
  quadLast s c

/-- Group of the regex `^.*://(\d{1,3}\.\d{1,3}\.\d{1,3}\.\d{1,3})` of
    get_domain: the greedy `.*` picks the last `://` that a dotted quad
    follows. -/
def ipOf (s : LC) : Option LC :=
  ((List.range (s.length + 1)).reverse.filterMap (fun j =>
    if 3 ≤ j ∧ litAt (lc "://") s (j - 3) then
      match ipQuadEnd s j with
      | some e => some ((s.drop j).take (e - j))
      | none => none
    else none)).head?

/-- End index of the last occurrence of `pat` in `s`, if any. -/
def lastSubEnd (pat s : LC) : Option Nat :=
  ((List.range (s.length + 1)).reverse.find? (fun j => litAt pat s j)).map
    (· + pat.length)

/-- Embeds get_domain of common.py: an IP address when the anchored IP
    regex matches, else the host (text after the last `://`, before the
    first `/`, lower-cased) reduced by the public-suffix fold. -/
def getDomain (url : LC) : LC :=
  match ipOf url with
  | some ip => ip
  | none =>
    let u1 := match lastSubEnd (lc "://") url with
      | some e => url.drop e
      | none => url
    let host := lowerL (u1.takeWhile (· ≠ '/'))
    let sections := host.splitOn '.'
    List.intercalate ['.']
      (sections.foldl
        (fun dom sec => if sec ∈ domainSuffixes then dom ++ [sec] else [sec]) [])

/-- Python substring containment (the `in` operator on strings). -/
def isSubstring (pat s : LC) : Bool :=
  (List.range (s.length + 1)).any (fun i => litAt pat s i)

/-- Embeds same_domain of common.py: both domains nonempty and one a
    substring of the other. -/
def sameDomain (u1 u2 : LC) : Bool :=
  let s1 := getDomain u1
  let s2 := getDomain u2
  !s1.isEmpty && !s2.isEmpty && (isSubstring s1 s2 || isSubstring s2 s1)

/-- Modelled from the spec: the declared scheme of a URL (the stdlib
    urlsplit used by get_links is outside src/): the lower-cased text
    before the first colon when it is a letter followed by letters,
    digits, plus, minus or dot; empty otherwise. -/
def schemeOf (u : LC) : LC :=
  match u.findIdx? (· == ':') with
  | none => []
  | some k =>
    match u.take k with
    | [] => []
    | c :: rest =>
      if c.isAlpha ∧ rest.all (fun d => d.isAlpha || d.isDigit || d == '+' ||
          d == '-' || d == '.') then
        lowerL (c :: rest)
      else []

/-- Modelled from the spec: resolve a candidate link against the base
    URL (the stdlib urljoin used by get_links is outside src/).  The
    forms the engine meets are covered: an empty link keeps the base, a
    link with a scheme stands alone, a protocol-relative link takes the
    base scheme, a rooted path replaces the base path, and a relative
    path replaces the last segment of the base path. -/
def urljoin (base link : LC) : LC :=
  if link = [] then base
  else if schemeOf link ≠ [] then link
  else if link.take 2 = lc "//" then schemeOf base ++ ':' :: link
  else
    let scheme := schemeOf base
    let rest := base.drop (scheme.length + 3)
    let netloc := rest.takeWhile (· ≠ '/')
    let path := rest.drop netloc.length
    if link.head? = some '/' then scheme ++ lc "://" ++ netloc ++ link
    else
      let dir := (path.reverse.dropWhile (· ≠ '/')).reverse
      let dir2 := if dir = [] then lc "/" else dir
      scheme ++ lc "://" ++ netloc ++ dir2 ++ link

/-- Match of the regex `location.href ?= ?['"](.*?)['"]` at index `i`
    (case-sensitive, the dot matching any character, at most one space
    on each side of the equals sign, the group running to the first
    following quote character of either kind); returns the group and
    the index after the match. -/
def jsLinkAt (s : LC) (i : Nat) : Option (LC × Nat) :=
  if litAt (lc "location") s i ∧ i + 8 < s.length ∧ litAt (lc "href") s (i + 9) then
    let j := i + 13
    let k? : Option Nat :=
      if charAt s j = some ' ' then
        if charAt s (j + 1) = some '=' then some (j + 2) else none
      else if charAt s j = some '=' then some (j + 1)
      else none
    match k? with
    | none => none
    | some k =>
      let q := if charAt s k = some ' ' then k + 1 else k
      if charAt s q = some '"' ∨ charAt s q = some '\'' then
        let body := s.drop (q + 1)
        match body.findIdx? (fun c => c == '"' || c == '\'') with
        | some e => some (body.take e, q + 1 + e + 1)
        | none => none
      else none
  else none

/-- Findall scan of the script-navigation regex of get_links. -/
def jsLinksF (s : LC) : Nat → Nat → List LC
  | 0, _ => []
  | fuel + 1, i =>
    if s.length ≤ i then []
    else
      match jsLinkAt s i with
      | some (g, e) => g :: jsLinksF s fuel e
      | none => jsLinksF s fuel (i + 1)

/-- The js_links list of get_links of xpath.py. -/
def jsLinks (s : LC) : List LC := jsLinksF s (s.length + 1) 0

/-- Embeds normalize_link inside get_links of xpath.py (urlsplit and
    urljoin modelled from the spec, as noted on schemeOf and urljoin). -/
def normalizeLink (url? : Option LC) (includeLocal includeExternal : Bool)
    (link : LC) : Option LC :=
  if schemeOf link = lc "http" ∨ schemeOf link = lc "https" ∨ schemeOf link = []
  then
    let l2 := if link.contains '#' then link.takeWhile (· ≠ '#') else link
    match url? with
    | none => some l2
    | some url =>
      let j := urljoin url l2
      if ¬ includeLocal ∧ sameDomain url j then none
      else if ¬ includeExternal ∧ ¬ sameDomain url j then none
      else some j
  else none

/-- Accumulation loop of get_links: a normalized link is appended when
    it is nonempty and not yet collected. -/
def dedupLinks (normalize : LC → Option LC) : List LC → List LC → List LC
  | acc, [] => acc
  | acc, l :: ls =>
    match normalize l with
    | some n =>
      if n ≠ [] ∧ n ∉ acc then dedupLinks normalize (acc ++ [n]) ls
      else dedupLinks normalize acc ls
    | none => dedupLinks normalize acc ls

/-- Embeds get_links of xpath.py: anchor href values found by the
    evaluator plus script navigation targets, each normalized, collected
    deduplicated in first-seen order. -/
def getLinks (html : LC) (url? : Option LC)
    (includeLocal includeExternal : Bool) : Except XPathException (List LC) :=
  match search html (lc "//a/@href") with
  | .error e => .error e
  | .ok aLinks =>
    .ok (dedupLinks (normalizeLink url? includeLocal includeExternal) []
      (aLinks ++ jsLinks html))

/-- Occurrence, at index `i`, of an open or close form of exactly the
    tag name `tagL`, as claim C1 words it: `<`, an optional `/`, then a
    complete tag name case-insensitively equal to `tagL` (a name that
    merely begins with it does not count), the occurrence ending at its
    `>`; returns the exclusive end. -/
def specTagOccAt (tagL s : LC) (i : Nat) : Option Nat :=
  if charAt s i ≠ some '<' then none
  else
    let j := if charAt s (i + 1) = some '/' then i + 2 else i + 1
    let run := (s.drop j).takeWhile isWordChar
    if run ≠ [] ∧ lowerL run = lowerL tagL then
      (findCharFrom s '>' (j + run.length)).map (· + 1)
    else none

/-- The occurrences of claim C1, scanned left to right without overlap. -/
def specOccsF (tagL s : LC) : Nat → Nat → List (Nat × Nat)
  | 0, _ => []
  | fuel + 1, i =>
    if s.length ≤ i then []
    else
      match specTagOccAt tagL s i with
      | some e => (i, e) :: specOccsF tagL s fuel e
      | none => specOccsF tagL s fuel (i + 1)

/-- Depth scan of claim C1 over (start, end) occurrences: a closing form
    decrements, a self-closing form is neutral, any other opening form
    increments; the split happens at the end of the occurrence where the
    counter returns to 0. -/
def depthScan (s : LC) : List (Nat × Nat) → Int → Option (LC × LC)
  | [], _ => none
  | (st, en) :: rest, depth =>
    let depth2 : Int :=
      if charAt s (st + 1) = some '/' then depth - 1
      else if charAt s (en - 2) = some '/' then depth
      else depth + 1
    if depth2 = 0 then some (s.take en, s.drop en) else depthScan s rest depth2

/-- The reference algorithm exactly as claim C1 states it: occurrences
    of exactly the first tag name, and the whole remaining text (with an
    empty remainder) when the depth never returns to 0. -/
def specSplitTag (s : LC) : LC × LC :=
  let tagL := (getTag s).getD (lc "None")
  match depthScan s (specOccsF tagL s (s.length + 1) 0) 0 with
  | some r => r
  | none => (s, [])

/-- The materialized list of regex matches that split_tag iterates. -/
def regexOccsF (tagL s : LC) : Nat → Nat → List (Nat × Nat)
  | 0, _ => []
  | fuel + 1, i =>
    match nextTagMatchFrom tagL s (s.length + 1) i with
    | none => []
    | some (st, en) => (st, en) :: regexOccsF tagL s fuel en

/-- The reference algorithm amended as the counterexample to claim C1
    forces: occurrences are the non-overlapping leftmost matches of
    `</?t` followed by the shortest run to a `>` (so a tag name that
    merely begins with `t` also drives the counter), and a missing close
    appends a synthesized closing tag to the fragment. -/
def specSplitTagAmended (s : LC) : LC × LC :=
  let tagL := (getTag s).getD (lc "None")
  match depthScan s (regexOccsF tagL s (s.length + 1) 0) 0 with
  | some r => r
  | none => (s ++ '<' :: '/' :: (tagL ++ ['>']), [])

end WebScraping

-- Examples mirroring the doctests of xpath.py and common.py, plus the
-- concrete evaluations the claim theorems below build on.
example : WebScraping.getTag (WebScraping.lc "<div>abc</div>") = some (WebScraping.lc "div") := by decide
example : WebScraping.getTag (WebScraping.lc " <div>") = none := by decide
example : WebScraping.jumpNextTag (WebScraping.lc "<br> <div>abc</div>") =
    some (WebScraping.lc "<div>abc</div>") := by decide
example : WebScraping.splitTag (WebScraping.lc "<div>abc<div>def</div>abc</div>ghi<div>jkl</div>") =
    (WebScraping.lc "<div>abc<div>def</div>abc</div>", WebScraping.lc "ghi<div>jkl</div>") := by decide
example : WebScraping.splitTag (WebScraping.lc "<br /><div>abc</div>") =
    (WebScraping.lc "<br />", WebScraping.lc "<div>abc</div>") := by decide
example : WebScraping.splitTag (WebScraping.lc "<div>abc<div>def</div>abc</span>") =
    (WebScraping.lc "<div>abc<div>def</div>abc</span></div>", WebScraping.lc "") := by decide
example : WebScraping.findChildren (WebScraping.lc "<span>1</span><div>abc<div>def</div>abc</div>ghi<div>jkl</div>") (WebScraping.lc "div") =
    [WebScraping.lc "<div>abc<div>def</div>abc</div>", WebScraping.lc "<div>jkl</div>"] := by decide
example : WebScraping.findDescendants (WebScraping.lc "<span>1</span><div>abc<div>def</div>abc</div>ghi<div>jkl</div>") (WebScraping.lc "div") =
    .ok [WebScraping.lc "<div>abc<div>def</div>abc</div>", WebScraping.lc "<div>def</div>", WebScraping.lc "<div>jkl</div>"] := by decide

open WebScraping in
example : getAttributes (lc "<div id=\"ID\" name=\"MY NAME\" max-width=\"20\" class=abc>content <span class=\"inner name\">SPAN</span></div>") =
    [(lc "id", lc "ID"), (lc "name", lc "MY NAME"), (lc "max-width", lc "20"), (lc "class", lc "abc")] := by decide

open WebScraping in
example : matchAttributes [] [] = true := by decide
open WebScraping in
example : matchAttributes [(lc "class", lc "test")] [(lc "id", lc "test"), (lc "class", lc "test2")] = false := by decide
open WebScraping in
example : matchAttributes [(lc "class", lc "test\\d")] [(lc "id", lc "test"), (lc "class", lc "test2")] = true := by decide
open WebScraping in
example : matchAttributes [(lc "class", lc "test\\d")] [(lc "id", lc "test2"), (lc "class", lc "test")] = false := by decide
open WebScraping in
example : matchAttributes [(lc "class", lc "test"), (lc "id", lc "content")] [(lc "id", lc "content"), (lc "class", lc "test")] = true := by decide

open WebScraping in
example : getContent (lc "<div id=\"ID\" name=\"NAME\">content <span>SPAN</span></div>") =
    lc "content <span>SPAN</span>" := by decide

open WebScraping in
example : removeTags (lc "hello <b>world</b>!") true = lc "hello world!" := by decide
open WebScraping in
example : removeTags (lc "hello <b>world</b>!") false = lc "hello !" := by decide
open WebScraping in
example : removeTags (lc "hello <br>world<br />!") false = lc "hello world!" := by decide

open WebScraping in
example : cleanHtml (lc "a<!-- hidden -->b") = lc "ab" := by decide

open WebScraping in
example : tokenize (lc "/div[1]//span[@class=\"text\"]") =
    [([], lc "div[1]"), (lc "/", lc "span[@class=\"text\"]")] := by decide

open WebScraping in
example : parseToken ([], lc "div[1]") = .ok ⟨[], lc "div", some 1, []⟩ := by decide
open WebScraping in
example : parseToken (lc "/", lc "span[@class=\"text\"]") =
    .ok ⟨lc "/", lc "span", none, [(lc "class", lc "text")]⟩ := by decide
open WebScraping in
example : parseToken ([], lc "span[1][@class=\"text\"][@title=\"\"]") =
    .ok ⟨[], lc "span", some 1, [(lc "class", lc "text"), (lc "title", [])]⟩ := by decide

open WebScraping in
example : search (lc "<span>1</span><div>abc<a>LINK 1</a><div><a>LINK 2</a>def</div>abc</div>ghi<div><a>LINK 3</a>jkl</div>") (lc "/div/a") =
    .ok [lc "LINK 1", lc "LINK 3"] := by decide

open WebScraping in
example : search (lc "<div>abc<a class=\"link\">LINK 1</a><div><a>LINK 2</a>def</div>abc</div>ghi<div><a class=\"link\">LINK 3</a>jkl</div>") (lc "/div[1]/a[@class=\"link\"]") =
    .ok [lc "LINK 1"] := by decide

open WebScraping in
example : search (lc "<div>abc<a class=\"link\">LINK 1</a><div><a>LINK 2</a>def</div>abc</div>ghi<div><a class=\"link\">LINK 3</a>jkl</div>") (lc "/div[1]//a") =
    .ok [lc "LINK 1", lc "LINK 2"] := by decide

open WebScraping in
example : search (lc "<div>abc<a class=\"link\">LINK 1</a></div>") (lc "/div/a/@class") =
    .ok [lc "link"] := by decide

open WebScraping in
example : getDomain (lc "http://www.google.com.au/tos.html") = lc "google.com.au" := by decide
open WebScraping in
example : getDomain (lc "http://ex.com/p") = lc "ex.com" := by decide
open WebScraping in
example : sameDomain (lc "http://ex.com/p") (lc "http://ex.com/x") = true := by decide
open WebScraping in
example : urljoin (lc "http://ex.com/p") (lc "/x") = lc "http://ex.com/x" := by decide
open WebScraping in
example : schemeOf (lc "/x#frag") = [] := by decide
open WebScraping in
example : getLinks (lc "<a href=\"/x#frag\">l</a>") (some (lc "http://ex.com/p")) false true = .ok [] := by decide
open WebScraping in
example : getLinks (lc "<a href=\"/x#frag\">l</a>") (some (lc "http://ex.com/p")) true false = .ok [lc "http://ex.com/x"] := by decide
open WebScraping in
example : splitTag (lc "<div>a</divx>b</div>c") = (lc "<div>a</divx>", lc "b</div>c") := by decide
open WebScraping in
example : specSplitTag (lc "<div>a</divx>b</div>c") = (lc "<div>a</divx>b</div>", lc "c") := by decide
open WebScraping in
example : specSplitTagAmended (lc "<div>a</divx>b</div>c") = (lc "<div>a</divx>", lc "b</div>c") := by decide
open WebScraping in
example : search (lc "<!<!-- x -->-- <a>SECRET</a> -->") (lc "/a") = .ok [lc "SECRET"] := by decide
open WebScraping in
example : search (cleanHtml (lc "<!<!-- x -->-- <a>SECRET</a> -->")) (lc "/a") = .ok [] := by decide
open WebScraping in
example : search (lc "<a>1</a>") (lc "../a") = .ok [lc "1"] := by decide
open WebScraping in
example : findChildren (lc "<img><div>a</div>") (lc "div") = [] := by decide
open WebScraping in
example : findDescendants (lc "<br>x") (lc "br") = .ok [lc "<br>x</br>"] := by decide
open WebScraping in
example : search (lc "a<b>x</b>c") (lc "/text()") = .ok [lc "ac"] := by decide
open WebScraping in
example : removeTags (lc "a<b>x</b>c") true = lc "axc" := by decide
open WebScraping in
example : search (lc "<a class=\"x\">1</a><a>2</a>") (lc "/a[-1][@class=\"x\"]") = .ok [] := by decide
open WebScraping in
example : search (lc "<a class=\"x\">1</a><a>2</a>") (lc "/a[@class=\"x\"]") = .ok [lc "1"] := by decide
open WebScraping in
example : matchAttributes [(lc "class", lc "est")] [(lc "class", lc "test")] = false := by decide
open WebScraping in
example : specMatchAttributes [(lc "class", lc "est")] [(lc "class", lc "test")] = true := by decide

namespace WebScraping

/-- C10: a query that parses into zero steps (no slash-introduced step
    token, e.g. the empty query or a bare token without a leading slash)
    makes search raise nothing and return the single comment-stripped
    input text as its only context. -/
theorem C10_zero_steps (html q : LC) (h : tokenize q = []) :
    search html q = .ok [cleanHtml html] := by
  unfold search
  rw [h]
  rfl

/-- Witness for C10 at the empty query and a bare token. -/
theorem C10_witness :
    tokenize (lc "") = [] ∧ tokenize (lc "abc") = [] ∧
      search (lc "<b>1</b>") (lc "abc") = .ok [cleanHtml (lc "<b>1</b>")] :=
  ⟨by decide, by decide, C10_zero_steps (lc "<b>1</b>") (lc "abc") (by decide)⟩

/-- C9 counterexample: deleting a comment can expose a new comment, so
    the single cleaning pass of search is not idempotent and search on
    the raw input is not search on the once-cleaned input: here the raw
    input keeps the anchor, the cleaned input loses it. -/
theorem C9_counterexample :
    search (lc "<!<!-- x -->-- <a>SECRET</a> -->") (lc "/a") = .ok [lc "SECRET"] ∧
    search (cleanHtml (lc "<!<!-- x -->-- <a>SECRET</a> -->")) (lc "/a") = .ok [] ∧
    search (lc "<!<!-- x -->-- <a>SECRET</a> -->") (lc "/a") ≠
      search (cleanHtml (lc "<!<!-- x -->-- <a>SECRET</a> -->")) (lc "/a") := by
  refine ⟨by decide, by decide, by decide⟩

/-- C9 amended: search evaluates the steps against the once
    comment-stripped input, so search on the raw input equals search on
    the stripped input exactly when the one-pass comment strip is
    idempotent on that input. -/
theorem C9_amended (html q : LC)
    (hid : cleanHtml (cleanHtml html) = cleanHtml html) :
    search html q = search (cleanHtml html) q := by
  unfold search
  rw [hid]

/-- Witness for C9 amended on a comment-free input. -/
theorem C9_witness : search (lc "<a>1</a>") (lc "/a") =
    search (cleanHtml (lc "<a>1</a>")) (lc "/a") :=
  C9_amended (lc "<a>1</a>") (lc "/a") (by decide)

/-- C4 counterexample: a query containing the parent token as a leading
    separator, such as ../a, is parsed as a descendant axis and
    completes normally with a result instead of raising; likewise a
    query reaching //* only after a step that already emptied the
    contexts terminates early with the empty result and never raises. -/
theorem C4_counterexample :
    search (lc "<a>1</a>") (lc "../a") = .ok [lc "1"] ∧
    search (lc "hello") (lc "/div//*") = .ok [] := by
  refine ⟨by decide, by decide⟩

/-- C4 amended: a step token that is itself the parent token (as in
    /..) raises the unsupported-parent error on every input, and a
    reached descendant step with the wildcard tag (as in //*) raises the
    unsupported-wildcard error on every input; but .. as a separator is
    silently evaluated as a descendant search, and a step after an
    early termination is never reached. -/
theorem C4_amended (html : LC) :
    search html (lc "/..") = .error .unsupportedParent ∧
    search html (lc "//*") = .error .unsupportedWildcard :=
  ⟨rfl, rfl⟩

/-- Witness for C4 amended at a concrete input. -/
theorem C4_witness :
    search (lc "x") (lc "/..") = .error .unsupportedParent ∧
    search (lc "x") (lc "//*") = .error .unsupportedWildcard :=
  C4_amended (lc "x")

/-- C2 counterexample: the evaluator passes keep_children=False to
    remove_tags, so the text inside the child tag pair is discarded; the
    claim asks for the children-kept stripping, which differs. -/
theorem C2_counterexample :
    search (lc "a<b>x</b>c") (lc "/text()") = .ok [lc "ac"] ∧
    removeTags (lc "a<b>x</b>c") true = lc "axc" ∧
    search (lc "a<b>x</b>c") (lc "/text()") ≠
      .ok [removeTags (lc "a<b>x</b>c") true] := by
  refine ⟨by decide, by decide, by decide⟩

/-- C2 amended: a text() step replaces every context by
    remove_tags(context, keep_children=False), whose middle pass deletes
    each tag pair together with the text inside it, so child/descendant
    text is discarded (not kept) wherever that pass matches. -/
theorem C2_amended (step : Step) (ctxs : List LC) (pattrs : List AttrSet)
    (h : step.tag = lc "text()") :
    stepChildren step ctxs pattrs =
      .ok (ctxs.map (fun c => removeTags c false), pattrs) := by
  unfold stepChildren
  rw [h, if_neg (by decide), if_pos rfl]

/-- Witness for C2 amended at a concrete step and context. -/
theorem C2_witness :
    stepChildren ⟨[], lc "text()", none, []⟩ [lc "a<b>x</b>c"] [] =
      .ok ([lc "a<b>x</b>c"].map (fun c => removeTags c false), []) :=
  C2_amended ⟨[], lc "text()", none, []⟩ [lc "a<b>x</b>c"] [] (by decide)

/-- C3 counterexample: the matcher as the claim words it (pattern
    anchored only at the end of the value) accepts the filter est
    against the value test, but match_attributes rejects it: re.match
    anchors the pattern at the start of the value as well. -/
theorem C3_counterexample :
    specMatchAttributes [(lc "class", lc "est")] [(lc "class", lc "test")] = true ∧
    matchAttributes [(lc "class", lc "est")] [(lc "class", lc "test")] = false := by
  refine ⟨by decide, by decide⟩

/-- C3 amended: match_attributes returns True exactly when every
    (name, pattern) filter finds the name present and the pattern,
    anchored at the start by re.match and at the end by the appended
    dollar, matching the whole value case-insensitively; an empty filter
    list yields True. -/
theorem C3_amended (fs avail : List (LC × LC)) :
    matchAttributes fs avail = true ↔
      ∀ p ∈ fs, ∃ v, dictGet avail p.1 = some v ∧
        pyMatch (p.2 ++ ['$']) v = true := by
  induction fs with
  | nil => simp [matchAttributes]
  | cons p rest ih =>
    obtain ⟨n, pv⟩ := p
    simp only [matchAttributes]
    cases h : dictGet avail n with
    | none =>
      constructor
      · intro hh; exact absurd hh (by simp)
      · intro hh
        exfalso
        obtain ⟨v, hv, _⟩ := hh (n, pv) (by simp)
        rw [h] at hv
        exact Option.noConfusion hv
    | some value =>
      rw [Bool.and_eq_true, ih]
      constructor
      · rintro ⟨h1, h2⟩ q hq
        rcases List.mem_cons.mp hq with rfl | hq2
        · exact ⟨value, h, h1⟩
        · exact h2 q hq2
      · intro hh
        refine ⟨?_, fun q hq => hh q (List.mem_cons_of_mem _ hq)⟩
        obtain ⟨v, hv, hm⟩ := hh (n, pv) (List.mem_cons_self _ _)
        rw [h] at hv
        rw [Option.some.inj hv]
        exact hm

/-- Witness for C3 amended at a concrete filter list. -/
theorem C3_witness :
    matchAttributes [(lc "class", lc "test\\d")] [(lc "class", lc "test2")] = true :=
  (C3_amended [(lc "class", lc "test\\d")] [(lc "class", lc "test2")]).mpr
    (by decide)

end WebScraping

namespace WebScraping

/-- The incremental match walk of split_tag equals the depth scan over
    the materialized match list. -/
theorem splitTagF_eq_depthScan (tagL s : LC) :
    ∀ (fuel i : Nat) (depth : Int),
      splitTagF tagL s fuel i depth =
        depthScan s (regexOccsF tagL s fuel i) depth := by
  intro fuel
  induction fuel with
  | zero => intro i depth; rfl
  | succ n ih =>
    intro i depth
    simp only [splitTagF, regexOccsF]
    cases h : nextTagMatchFrom tagL s (s.length + 1) i with
    | none => rfl
    | some pe =>
      obtain ⟨st, en⟩ := pe
      simp only [depthScan]
      by_cases hd : (if charAt s (st + 1) = some '/' then depth - 1
          else if charAt s (en - 2) = some '/' then depth else depth + 1) = 0
      · simp only [if_pos hd]
      · simp only [if_neg hd]
        exact ih en _

/-- C1 counterexample: on an input whose first tag is div but which
    contains a tag named divx, split_tag lets the closing form of divx
    (a name that merely begins with div) end the match, while the
    reference algorithm of the claim (exact tag names only) runs on to
    the real closing div, so the two disagree. -/
theorem C1_counterexample :
    splitTag (lc "<div>a</divx>b</div>c") =
      (lc "<div>a</divx>", lc "b</div>c") ∧
    specSplitTag (lc "<div>a</divx>b</div>c") =
      (lc "<div>a</divx>b</div>", lc "c") ∧
    splitTag (lc "<div>a</divx>b</div>c") ≠
      specSplitTag (lc "<div>a</divx>b</div>c") := by
  refine ⟨by decide, by decide, by decide⟩

/-- C1 amended: split_tag computes the reference algorithm amended so
    that the scanned occurrences are the non-overlapping leftmost
    matches of an open/close/self-close form of ANY tag name beginning
    with the first tag name (each occurrence ending at the first later
    `>`), and so that a missing close yields the whole text with a
    synthesized closing tag appended (not the bare remaining text). -/
theorem C1_amended (s : LC) : splitTag s = specSplitTagAmended s := by
  simp only [splitTag, specSplitTagAmended, splitTagF_eq_depthScan]

/-- Witness for C1 amended at a concrete input. -/
theorem C1_witness : splitTag (lc "<b>1</b>x") = specSplitTagAmended (lc "<b>1</b>x") :=
  C1_amended (lc "<b>1</b>x")

/-- The suffix found by the tag-occurrence search starts with that tag. -/
theorem findTagOcc_getTag :
    ∀ s suf name, findTagOcc s = some (suf, name) → getTag suf = some name := by
  intro s
  induction s with
  | nil => intro suf name h; exact Option.noConfusion h
  | cons c rest ih =>
    intro suf name h
    rw [findTagOcc] at h
    cases hg : getTag (c :: rest) with
    | some nm =>
      simp only [hg] at h
      obtain h3 := Option.some.inj h
      injection h3 with ha hb
      subst ha
      subst hb
      exact hg
    | none =>
      simp only [hg] at h
      exact ih suf name h

/-- C5 counterexample: the void set of the scanner is only br and hr,
    so an image tag is not skipped: find_children lets the unclosed img
    swallow the following div (no div child is found although the claim
    promises the img is transparently skipped); and find_descendants,
    searching for the void tag br directly, returns a containing
    fragment that extends past the br tag itself. -/
theorem C5_counterexample :
    findChildren (lc "<img><div>a</div>") (lc "div") = [] ∧
    findDescendants (lc "<br>x") (lc "br") = .ok [lc "<br>x</br>"] ∧
    lc "<br>x</br>" ≠ lc "<br>" := by
  refine ⟨by decide, by decide, by decide⟩

/-- C5 amended: the scanner void set (EMPTY_TAGS of xpath.py) holds
    exactly br and hr, and jump_next_tag transparently skips exactly
    those: whenever it returns a position, the tag standing there has a
    lower-cased name outside that set, so find_children never starts a
    fragment at a br or hr tag.  Other void elements (img and the rest)
    are not skipped, and find_descendants applies no skipping at all. -/
theorem C5_amended (s t : LC) (h : jumpNextTag s = some t) :
    ∃ name, getTag t = some name ∧ lowerL name ∉ emptyTagsXpath := by
  have main : ∀ (fuel : Nat) (s : LC), jumpNextTagF fuel s = some t →
      ∃ name, getTag t = some name ∧ lowerL name ∉ emptyTagsXpath := by
    intro fuel
    induction fuel with
    | zero => intro s h2; exact Option.noConfusion h2
    | succ n ih =>
      intro s h2
      simp only [jumpNextTagF] at h2
      cases hf : findTagOcc s with
      | none =>
        rw [hf] at h2
        exact Option.noConfusion h2
      | some p =>
        obtain ⟨suf, name⟩ := p
        simp only [hf] at h2
        by_cases hm : lowerL name ∈ emptyTagsXpath
        · rw [if_pos hm] at h2
          exact ih _ h2
        · rw [if_neg hm] at h2
          rw [← Option.some.inj h2]
          exact ⟨name, findTagOcc_getTag s suf name hf, hm⟩
  exact main (s.length + 1) s h

/-- Witness for C5 amended: jumping over a br lands on the div. -/
theorem C5_witness :
    ∃ name, getTag (lc "<div>abc</div>") = some name ∧
      lowerL name ∉ emptyTagsXpath :=
  C5_amended (lc "<br> <div>abc</div>") (lc "<div>abc</div>") (by decide)

/-- C6: in the evaluator loop, a step whose selector is literally tbody
    and whose computed children list is empty passes the contexts
    through unchanged to the remaining steps (the parent attributes
    being the ones the step computed), while a step with any other
    selector whose children list is empty ends evaluation at once with
    the empty result. -/
theorem C6_tbody_leniency (tok : LC × LC) (rest : List (LC × LC))
    (ctxs : List LC) (pattrs pa2 : List AttrSet) (step : Step)
    (hp : parseToken tok = .ok step)
    (hc : stepChildren step ctxs pattrs = .ok ([], pa2)) :
    (step.tag = lc "tbody" → ctxs ≠ [] →
        evalTokens (tok :: rest) ctxs pattrs = evalTokens rest ctxs pa2) ∧
    (step.tag ≠ lc "tbody" →
        evalTokens (tok :: rest) ctxs pattrs = .ok []) := by
  constructor
  · intro ht hne
    simp only [evalTokens, hp, hc]
    rw [if_pos (show True ∧ step.tag = lc "tbody" from ⟨trivial, ht⟩)]
    rw [if_neg hne]
  · intro ht
    simp only [evalTokens, hp, hc]
    rw [if_neg (show ¬ (True ∧ step.tag = lc "tbody") from fun hcon => ht hcon.2)]
    rw [if_pos rfl]

/-- Witness for C6 at a concrete tbody step and a concrete other step. -/
theorem C6_witness :
    evalTokens [([], lc "tbody"), ([], lc "b")] [lc "<b>1</b>"] [] =
      evalTokens [([], lc "b")] [lc "<b>1</b>"] [] ∧
    evalTokens [([], lc "div")] [lc "x"] [] = .ok [] :=
  ⟨(C6_tbody_leniency ([], lc "tbody") [([], lc "b")] [lc "<b>1</b>"] [] []
      ⟨[], lc "tbody", none, []⟩ (by decide) (by decide)).1 (by decide) (by decide),
   (C6_tbody_leniency ([], lc "div") [] [lc "x"] [] []
      ⟨[], lc "div", none, []⟩ (by decide) (by decide)).2 (by decide)⟩

end WebScraping

namespace WebScraping

/-- With no index and no attribute filters, a tag step keeps every
    scanner match, in order. -/
theorem collectKept_none (ms : List LC) : ∀ (total i : Nat),
    collectKept none [] total i ms = (ms.map getContent, ms.map getAttributes) := by
  induction ms with
  | nil => intro total i; rfl
  | cons m ms2 ih =>
    intro total i
    simp only [collectKept, keepIndex, List.map]
    rw [if_pos trivial,
      if_pos (show matchAttributes [] (getAttributes m) = true from rfl), ih]

/-- With index -1 and no attribute filters, a tag step keeps exactly
    the last scanner match. -/
theorem collectKept_neg_one (ms : List LC) : ∀ (m : LC) (i total : Nat),
    total = i + ms.length + 1 →
      collectKept (some (-1)) [] total i (ms ++ [m]) =
        ([getContent m], [getAttributes m]) := by
  induction ms with
  | nil =>
    intro m i total ht
    have hk : keepIndex (some (-1)) total i = true := by
      simp only [keepIndex]
      have h2 : (total == i + 1) = true := beq_iff_eq.mpr (by simp at ht; omega)
      rw [h2]
      simp
    simp only [List.nil_append, collectKept]
    rw [hk, if_pos rfl,
      if_pos (show matchAttributes [] (getAttributes m) = true from rfl)]
  | cons m0 ms2 ih =>
    intro m i total ht
    have hk : keepIndex (some (-1)) total i = false := by
      simp only [keepIndex]
      have h1 : ((-1 : Int) == (i : Int) + 1) = false :=
        beq_eq_false_iff_ne.mpr (by omega)
      have h2 : (total == i + 1) = false :=
        beq_eq_false_iff_ne.mpr (by simp [List.length_cons] at ht; omega)
      rw [h1, h2]
      rfl
    simp only [List.cons_append, collectKept]
    rw [hk, if_neg (by simp)]
    exact ih m (i + 1) total (by simp [List.length_cons] at ht ⊢; omega)

/-- C7 counterexample: with an attribute filter on the step, index -1
    considers only the last raw scanner match and then applies the
    filter, so it returns nothing here, while the same step without an
    index returns the first anchor and taking the last element of that
    result yields a fragment — the two sides differ. -/
theorem C7_counterexample :
    search (lc "<a class=\"x\">1</a><a>2</a>") (lc "/a[-1][@class=\"x\"]") = .ok [] ∧
    search (lc "<a class=\"x\">1</a><a>2</a>") (lc "/a[@class=\"x\"]") = .ok [lc "1"] ∧
    search (lc "<a class=\"x\">1</a><a>2</a>") (lc "/a[-1][@class=\"x\"]") ≠
      (search (lc "<a class=\"x\">1</a><a>2</a>") (lc "/a[@class=\"x\"]")).map
        (fun rs => [rs.getLastD []]) := by
  refine ⟨by decide, by decide, by decide⟩

/-- C7 amended: for a tag step carrying NO attribute filters, index -1
    selects exactly the fragment that the identical step without an
    index yields last: the children of the -1 step are the one-element
    list holding the last child of the unindexed step.  (With attribute
    filters the code applies them only after the index choice, so the
    property fails — see the counterexample.) -/
theorem C7_amended (sep tagQ ctx : LC) (pattrs : List AttrSet) (ms : List LC)
    (h1 : tagQ ≠ lc "..") (h2 : tagQ ≠ lc "text()") (h3 : ¬ tagQ.head? = some '@')
    (hscan : axisSearch sep ctx tagQ = .ok ms) (hne : ms ≠ []) :
    (stepChildren ⟨sep, tagQ, some (-1), []⟩ [ctx] pattrs).map Prod.fst =
      ((stepChildren ⟨sep, tagQ, none, []⟩ [ctx] pattrs).map Prod.fst).map
        (fun rs => [rs.getLastD []]) := by
  rcases List.eq_nil_or_concat ms with rfl | ⟨ms2, m, rfl⟩
  · exact absurd rfl hne
  · rw [List.concat_eq_append] at hscan
    simp only [stepChildren, if_neg h1, if_neg h2, if_neg h3]
    simp only [tagStepFold, hscan]
    rw [collectKept_none, collectKept_neg_one ms2 m 0 (ms2 ++ [m]).length (by simp)]
    simp [Except.map, List.map_append, List.getLastD_concat]

/-- Witness for C7 amended at a concrete filterless step. -/
theorem C7_witness :
    (stepChildren ⟨[], lc "a", some (-1), []⟩ [lc "<a>1</a><a>2</a>"] []).map Prod.fst =
      ((stepChildren ⟨[], lc "a", none, []⟩ [lc "<a>1</a><a>2</a>"] []).map Prod.fst).map
        (fun rs => [rs.getLastD []]) :=
  C7_amended [] (lc "a") (lc "<a>1</a><a>2</a>") [] [lc "<a>1</a>", lc "<a>2</a>"]
    (by decide) (by decide) (by decide) (by decide) (by decide)

/-- The accumulation loop of get_links keeps its list duplicate-free. -/
theorem dedupLinks_nodup (f : LC → Option LC) :
    ∀ (ls acc : List LC), acc.Nodup → (dedupLinks f acc ls).Nodup := by
  intro ls
  induction ls with
  | nil => intro acc h; exact h
  | cons l ls2 ih =>
    intro acc h
    simp only [dedupLinks]
    split
    · rename_i n heq
      by_cases hc : n ≠ [] ∧ n ∉ acc
      · rw [if_pos hc]
        refine ih _ ?_
        rw [← List.concat_eq_append]
        exact List.Nodup.concat hc.2 h
      · rw [if_neg hc]
        exact ih acc h
    · exact ih acc h

/-- C8: link harvesting on the anchor with an in-page fragment: with
    local links excluded the result is empty (the link resolves into the
    same registrable domain as the base), with local kept and external
    excluded it is exactly the resolved, fragment-stripped absolute URL;
    and in general every result list of get_links is duplicate-free (the
    loop appends a link only at its first occurrence, preserving
    first-seen order). -/
theorem C8_get_links :
    getLinks (lc "<a href=\"/x#frag\">l</a>") (some (lc "http://ex.com/p")) false true =
      .ok [] ∧
    getLinks (lc "<a href=\"/x#frag\">l</a>") (some (lc "http://ex.com/p")) true false =
      .ok [lc "http://ex.com/x"] ∧
    ∀ (html : LC) (url? : Option LC) (il ie : Bool) (res : List LC),
      getLinks html url? il ie = .ok res → res.Nodup := by
  refine ⟨by decide, by decide, ?_⟩
  intro html url? il ie res h
  unfold getLinks at h
  cases hs : search html (lc "//a/@href") with
  | error e =>
    rw [hs] at h
    exact Except.noConfusion h
  | ok aLinks =>
    rw [hs] at h
    rw [← Except.ok.inj h]
    exact dedupLinks_nodup _ _ [] List.nodup_nil

/-- Witness for C8 at the concrete harvest. -/
theorem C8_witness : ([lc "http://ex.com/x"] : List LC).Nodup :=
  C8_get_links.2.2 (lc "<a href=\"/x#frag\">l</a>") (some (lc "http://ex.com/p"))
    true false [lc "http://ex.com/x"] (by decide)

end WebScraping
